import Mathlib

/-!
Verification of the client-side session orchestration layer of the
Sankalp DBMS frontend (a React single-page application).

The definitions below are a shallow embedding of the relevant source
functions:

* `initializeApp`, `handleDatasetUpload`, `handleQueryExecution`,
  `handleDatasetSelect`, `handleDatasetDelete` — the `App` component's
  state and handlers (the file shipped as `frontend/src/index.css`
  also contains the `App.js` source after a separator).
* `executeQuery` — `QueryEditor`'s `executeQuery`.
* `onDrop` — `FileUpload`'s `onDrop` callback (client-side extension
  validation before upload).
* `tutorialLevels`, `completeLesson`, `isLessonCompleted`,
  `isLevelUnlocked`, `getLevelProgress` — the `Tutorial` component.

Asynchronous remote calls are embedded by passing the outcome of the
would-be remote call (`Except Unit α`: `.error` for a rejected promise,
`.ok` for a resolved one) as an explicit argument, and each handler is a
pure state transformer; this matches the single-threaded, run-to-completion
semantics of the event handlers in the source.
-/

/-- A dataset as cached by the client. The `id` is the opaque server
identifier; the remaining metadata is irrelevant to the orchestration
logic and is represented by the original file name. -/
structure Dataset where
  id : Nat
  original_name : String
  deriving DecidableEq, Repr

/-- A query record / server query response as held in the client's
query history (`success`, optional `error` message, the query text and
the referenced dataset id; the result payload is opaque to the
orchestration layer). -/
structure QueryRecord where
  id : Nat
  query : String
  dataset_id : Nat
  success : Bool
  error : Option String
  deriving DecidableEq, Repr

/-- The configuration object fetched from the server (fields the client
reads: `multi_user_mode`, `version`, and the server-declared allowed
file types). -/
structure Config where
  allowed_file_types : List String
  multi_user_mode : Bool
  version : String
  deriving DecidableEq, Repr

/-- The `App` component's state: the `useState` hooks of `App`.
`selectedDataset` stores the whole dataset object (as in the source),
`config` starts as `null` (here `none`). -/
structure AppState where
  currentView : String
  datasets : List Dataset
  selectedDataset : Option Dataset
  loading : Bool
  config : Option Config
  queryHistory : List QueryRecord
  isOnboarding : Bool
  deriving DecidableEq, Repr

/-- The initial `App` state: `useState('dashboard')`, `useState([])`,
`useState(null)`, `useState(true)`, `useState(null)`, `useState([])`,
`useState(false)`. -/
def initialAppState : AppState :=
  { currentView := "dashboard"
    datasets := []
    selectedDataset := none
    loading := true
    config := none
    queryHistory := []
    isOnboarding := false }

/-- `App.initializeApp`: a single `try` block performing the three
fetches sequentially (`getConfig`, then `getDatasets`, then
`getQueryHistory`); the `catch` only logs, and `finally` clears
`loading`. An exception from any fetch skips the remaining fetches and
the onboarding computation, leaving the corresponding state fields at
their previous values. The onboarding flag is set iff both fetched
lists are empty. -/
def initializeApp (s : AppState)
    (configR : Except Unit Config)
    (datasetsR : Except Unit (List Dataset))
    (historyR : Except Unit (List QueryRecord)) : AppState :=
  let s0 := { s with loading := true }
  let s1 :=
    match configR with
    | .error _ => s0
    | .ok cfg =>
      let sA := { s0 with config := some cfg }
      match datasetsR with
      | .error _ => sA
      | .ok ds =>
        let sB := { sA with datasets := ds }
        match historyR with
        | .error _ => sB
        | .ok qs =>
          let sC := { sB with queryHistory := qs }
          if ds.isEmpty && qs.isEmpty then { sC with isOnboarding := true } else sC
  { s1 with loading := false }

/-- `App.handleDatasetUpload`: prepend the uploaded dataset; if no
dataset is currently selected, select the new one. -/
def handleDatasetUpload (s : AppState) (uploadedDataset : Dataset) : AppState :=
  let s' := { s with datasets := uploadedDataset :: s.datasets }
  match s.selectedDataset with
  | none => { s' with selectedDataset := some uploadedDataset }
  | some _ => s'

/-- `App.handleQueryExecution`: prepend the query result to history. -/
def handleQueryExecution (s : AppState) (queryResult : QueryRecord) : AppState :=
  { s with queryHistory := queryResult :: s.queryHistory }

/-- `App.handleDatasetSelect`: unconditionally store the given dataset
as selected (the source performs no membership check). -/
def handleDatasetSelect (s : AppState) (dataset : Dataset) : AppState :=
  { s with selectedDataset := some dataset }

/-- `App.handleDatasetDelete`: await the remote delete; on success,
filter the dataset out of the sequence and clear the selection if it
matched; on failure (`catch`), only log — local state is unchanged. -/
def handleDatasetDelete (s : AppState) (datasetId : Nat)
    (remote : Except Unit Unit) : AppState :=
  match remote with
  | .error _ => s
  | .ok _ =>
    let s' := { s with datasets := s.datasets.filter (fun d => d.id ≠ datasetId) }
    match s.selectedDataset with
    | some sel => if sel.id = datasetId then { s' with selectedDataset := none } else s'
    | none => s'

/-- Whether `App`'s selected dataset is null or has the id of some
dataset currently in the sequence (invariant 1 of the data model). -/
def selectionIntegrity (s : AppState) : Bool :=
  match s.selectedDataset with
  | none => true
  | some sel => s.datasets.any (fun d => d.id == sel.id)

/-- The dataset-collection operations of the `App` state machine:
an upload completion and a delete (with that delete's remote outcome). -/
inductive DsOp where
  | upload (d : Dataset)
  | delete (i : Nat) (remote : Except Unit Unit)

/-- Apply one dataset operation. -/
def applyDsOp (s : AppState) : DsOp → AppState
  | .upload d => handleDatasetUpload s d
  | .delete i remote => handleDatasetDelete s i remote

/-- Run a sequence of dataset operations from the initial `App` state. -/
def runDsOps (ops : List DsOp) : AppState :=
  ops.foldl applyDsOp initialAppState

/-- JavaScript `String.prototype.split(sep)` on the character list of a
string: splitting the empty string yields `[""]`, and adjacent
separators yield empty segments, as in JS. -/
def splitChars (sep : Char) : List Char → List (List Char)
  | [] => [[]]
  | c :: rest =>
    match splitChars sep rest with
    | [] => [[c]]
    | segment :: t => if c = sep then [] :: segment :: t else (c :: segment) :: t

/-- JavaScript `String.prototype.trim()` on a character list: strip
whitespace from both ends. -/
def trimChars (cs : List Char) : List Char :=
  ((cs.dropWhile Char.isWhitespace).reverse.dropWhile Char.isWhitespace).reverse

/-- Whether JavaScript `!text.trim()` holds, i.e. the string is empty
or whitespace-only. -/
def isBlank (text : String) : Bool :=
  String.mk (trimChars text.data) = ""

/-- Outcome of a `QueryEditor.executeQuery` call: a local (pre-network)
rejection shown as an error toast, a remote response (the response is
folded into history whether it reports success or failure), or a thrown
remote call (the `catch` branch — only a toast, nothing recorded). -/
inductive QueryOutcome where
  | localReject (msg : String)
  | executed (r : QueryRecord)
  | networkFailure
  deriving DecidableEq, Repr

/-- `QueryEditor.executeQuery`, acting on the `App` state it receives
through props. Guards: empty/whitespace-only text, then no selected
dataset — each returns early with only an error toast (no network call,
no history change). Otherwise the remote call is issued; on a response
`onQueryExecute(result)` (i.e. `handleQueryExecution`) is invoked
unconditionally, before the success/failure of the response is even
inspected for the toast; on a thrown call nothing is recorded. -/
def executeQuery (s : AppState) (queryText : String)
    (remote : Except Unit QueryRecord) : QueryOutcome × AppState :=
  if isBlank queryText then
    (.localReject "Please enter a query", s)
  else
    match s.selectedDataset with
    | none => (.localReject "Please select a dataset first", s)
    | some _ =>
      match remote with
      | .ok result => (.executed result, handleQueryExecution s result)
      | .error _ => (.networkFailure, s)

/-- The extension extracted by `FileUpload.onDrop`:
`file.name.split('.').pop().toLowerCase()` — the text after the final
dot, lowercased (the whole name when there is no dot). -/
def fileExtension (name : String) : String :=
  String.mk (((splitChars '.' name.data).getLastD []).map Char.toLower)

/-- The hardcoded client-side allow-list of `FileUpload.onDrop`:
`const supportedTypes = ['csv', 'json', 'xlsx', 'xls']`. -/
def supportedTypes : List String := ["csv", "json", "xlsx", "xls"]

/-- Outcome of a `FileUpload.onDrop` call: local rejection (no network
call), a successful upload response, or a failed upload request. -/
inductive UploadOutcome where
  | localReject
  | uploaded (d : Dataset)
  | uploadFailed
  deriving DecidableEq, Repr

/-- `FileUpload.onDrop` for a dropped file with name `fileName`: the
extension is validated against the fixed `supportedTypes` list (the
component receives no configuration object at all); on rejection only a
toast is shown. Otherwise the upload request is issued; on success
`onUpload(result)` (i.e. `handleDatasetUpload`) runs, on failure only a
toast is shown. -/
def onDrop (s : AppState) (fileName : String)
    (remote : Except Unit Dataset) : UploadOutcome × AppState :=
  if ¬ (supportedTypes.contains (fileExtension fileName)) then
    (.localReject, s)
  else
    match remote with
    | .ok result => (.uploaded result, handleDatasetUpload s result)
    | .error _ => (.uploadFailed, s)

/-- One tutorial lesson of the static catalog (id and title; the prose
content plays no role in the progression logic). -/
structure Lesson where
  id : Nat
  title : String
  deriving DecidableEq, Repr

/-- One tutorial level of the static catalog. -/
structure Level where
  id : Nat
  title : String
  lessons : List Lesson
  deriving DecidableEq, Repr

/-- The static `tutorialLevels` catalog of `Tutorial.js`: level 1 has
three lessons, levels 2–4 have two lessons each. -/
def tutorialLevels : List Level :=
  [ { id := 1, title := "Getting Started",
      lessons := [ { id := 1, title := "What is Sankalp?" },
                   { id := 2, title := "Basic Data Operations" },
                   { id := 3, title := "Understanding Results" } ] },
    { id := 2, title := "Data Filtering",
      lessons := [ { id := 1, title := "Comparison Filters" },
                   { id := 2, title := "Text Search" } ] },
    { id := 3, title := "Data Analysis",
      lessons := [ { id := 1, title := "Basic Calculations" },
                   { id := 2, title := "Grouping Data" } ] },
    { id := 4, title := "Data Visualization",
      lessons := [ { id := 1, title := "Basic Charts" },
                   { id := 2, title := "Advanced Visualizations" } ] } ]

/-- The `Tutorial` component's progression state: `currentLevel`,
`currentLesson`, and the completed set. The source keys the completed
`Set` by the string `` `${level}-${lesson}` ``, which encodes the pair
of numbers injectively; we hold the pairs themselves, with set
semantics given by membership-checked insertion. -/
structure TutorialState where
  currentLevel : Nat
  currentLesson : Nat
  completedLessons : List (Nat × Nat)
  deriving DecidableEq, Repr

/-- The initial `Tutorial` state: `useState(1)`, `useState(1)`,
`useState(new Set())`. -/
def initialTutorialState : TutorialState :=
  { currentLevel := 1, currentLesson := 1, completedLessons := [] }

/-- `Tutorial.isLessonCompleted`: membership of the `(level, lesson)`
key in the completed set. -/
def isLessonCompleted (completed : List (Nat × Nat))
    (levelId lessonId : Nat) : Bool :=
  completed.contains (levelId, lessonId)

/-- `Tutorial.isLevelUnlocked`: level 1 is always unlocked; any other
level is unlocked iff the catalog has a level with id `levelId - 1` and
every one of its lessons is completed. -/
def isLevelUnlocked (completed : List (Nat × Nat)) (levelId : Nat) : Bool :=
  if levelId = 1 then true
  else
    match tutorialLevels.find? (fun level => level.id == levelId - 1) with
    | none => false
    | some previousLevel =>
      previousLevel.lessons.all (fun lesson =>
        isLessonCompleted completed (levelId - 1) lesson.id)

/-- `Tutorial.getLevelProgress` (share of completed lessons in a level,
as a rational percentage; the source computes a JS number). -/
def getLevelProgress (completed : List (Nat × Nat)) (levelId : Nat) : ℚ :=
  match tutorialLevels.find? (fun l => l.id == levelId) with
  | none => 0
  | some level =>
    ((level.lessons.filter (fun lesson =>
        isLessonCompleted completed levelId lesson.id)).length : ℚ)
      / (level.lessons.length : ℚ) * 100

/-- `Tutorial.completeLesson`: look up the current level in the catalog
(the source dereferences `currentLevelData.lessons` and would throw if
the lookup failed, hence the `Option`); add the current `(level,
lesson)` key to the completed set; then advance the pointer — next
lesson if `currentLesson < lessons.length`, else first lesson of the
next level if `currentLevel < tutorialLevels.length`, else stay. -/
def completeLesson (s : TutorialState) : Option TutorialState :=
  (tutorialLevels.find? (fun level => level.id == s.currentLevel)).map
    (fun currentLevelData =>
      let key := (s.currentLevel, s.currentLesson)
      let completed :=
        if s.completedLessons.contains key then s.completedLessons
        else key :: s.completedLessons
      if s.currentLesson < currentLevelData.lessons.length then
        { s with completedLessons := completed,
                 currentLesson := s.currentLesson + 1 }
      else if s.currentLevel < tutorialLevels.length then
        { s with completedLessons := completed,
                 currentLevel := s.currentLevel + 1,
                 currentLesson := 1 }
      else
        { s with completedLessons := completed })

/-- The static lesson-id list of the catalog level with id `levelId`
(empty when no such level exists); used to state unlock conditions. -/
def lessonIdsOfLevel (levelId : Nat) : List Nat :=
  match tutorialLevels.find? (fun l => l.id == levelId) with
  | none => []
  | some level => level.lessons.map (fun lesson => lesson.id)

/-! ### Sample values used in scenario and witness theorems -/

/-- A sample cached dataset (id 7, uploaded as `data.csv`). -/
def sampleDataset : Dataset := { id := 7, original_name := "data.csv" }

/-- A sample successful query response. -/
def sampleRecord : QueryRecord :=
  { id := 1, query := "Show me all data", dataset_id := 7,
    success := true, error := none }

/-- A sample failed query response (the server reported an error). -/
def failedRecord : QueryRecord :=
  { id := 2, query := "Show me all data", dataset_id := 7,
    success := false, error := some "Query execution failed" }

/-- A sample configuration whose allow-list is `["csv", "json"]`. -/
def configCsvJson : Config :=
  { allowed_file_types := ["csv", "json"],
    multi_user_mode := false, version := "1.0.0" }

/-! ### Theorems for the claims -/

/-- C1 counterexample: run `initializeApp` from the initial state with
the config fetch failing and the dataset/history fetches (would-be)
returning empty lists. Contrary to the claim, the resulting state has
`onboarding = false` (not `true`) and `config = none` (no built-in
default is installed), because the single `try` block aborts at the
config failure before the other fetches and the onboarding computation
run. -/
theorem initializeApp_config_failure_counterexample :
    (initializeApp initialAppState (Except.error ()) (Except.ok [])
        (Except.ok [])).isOnboarding = false ∧
    (initializeApp initialAppState (Except.error ()) (Except.ok [])
        (Except.ok [])).config = none :=
  ⟨rfl, rfl⟩

/-- C1 (amended): the three initialization fetches run sequentially
under a single failure handler: a config-fetch failure aborts the
dataset and history fetches and the onboarding computation, leaving the
whole state at its prior values with only `loading` cleared; onboarding
is computed (set iff both lists are empty) only when all three fetches
succeed. -/
theorem initializeApp_sequential_failure
    (dsR : Except Unit (List Dataset)) (qsR : Except Unit (List QueryRecord)) :
    initializeApp initialAppState (Except.error ()) dsR qsR =
      { initialAppState with loading := false } ∧
    ∀ cfg : Config,
      (initializeApp initialAppState (Except.ok cfg) (Except.ok [])
          (Except.ok [])).isOnboarding = true ∧
      (initializeApp initialAppState (Except.ok cfg) (Except.ok [])
          (Except.ok [])).config = some cfg ∧
      (initializeApp initialAppState (Except.ok cfg) (Except.ok [])
          (Except.ok [])).datasets = [] ∧
      (initializeApp initialAppState (Except.ok cfg) (Except.ok [])
          (Except.ok [])).queryHistory = [] :=
  ⟨rfl, fun _ => ⟨rfl, rfl, rfl, rfl⟩⟩

/-- C2 counterexample: executing `"Show me all data"` from the initial
state (no dataset selected) returns a local rejection, but — contrary
to the claim — no `QueryRecord` is prepended to the history, which
stays empty: the guard only shows an error toast and returns. -/
theorem executeQuery_no_record_counterexample :
    executeQuery initialAppState "Show me all data" (Except.ok sampleRecord) =
      (QueryOutcome.localReject "Please select a dataset first", initialAppState) ∧
    (executeQuery initialAppState "Show me all data"
        (Except.ok sampleRecord)).2.queryHistory = [] := by
  constructor <;> decide

/-- C2 (amended): a call with empty/whitespace-only text or no selected
dataset fails locally — the outcome is a local rejection (an error
toast), no network request is issued, and the whole `App` state,
including the query history, is left unchanged; no failure record is
added. -/
theorem executeQuery_local_validation (s : AppState) (q : String)
    (remote : Except Unit QueryRecord)
    (h : isBlank q = true ∨ s.selectedDataset = none) :
    (executeQuery s q remote).2 = s ∧
    ∃ msg, (executeQuery s q remote).1 = QueryOutcome.localReject msg := by
  rcases h with h | h
  · unfold executeQuery
    rw [if_pos h]
    exact ⟨rfl, "Please enter a query", rfl⟩
  · unfold executeQuery
    by_cases hq : isBlank q
    · rw [if_pos hq]
      exact ⟨rfl, "Please enter a query", rfl⟩
    · rw [if_neg hq, h]
      exact ⟨rfl, "Please select a dataset first", rfl⟩

/-- Witness for C2 (amended), at Scenario D's input: query
`"Show me all data"` with no dataset selected. -/
theorem executeQuery_local_validation_witness :
    (executeQuery initialAppState "Show me all data"
        (Except.ok sampleRecord)).2 = initialAppState ∧
    ∃ msg, (executeQuery initialAppState "Show me all data"
        (Except.ok sampleRecord)).1 = QueryOutcome.localReject msg :=
  executeQuery_local_validation initialAppState "Show me all data"
    (Except.ok sampleRecord) (Or.inr rfl)

/-- C6: whenever the remote execution yields a response — whatever its
`success` flag — the response record is unconditionally prepended to
the query history (via `handleQueryExecution`), keeping the history
most-recent-first; `handleQueryExecution` itself always prepends. -/
theorem executeQuery_prepends_response (s : AppState) (q : String)
    (r : QueryRecord) (d : Dataset)
    (hq : isBlank q = false) (hsel : s.selectedDataset = some d) :
    executeQuery s q (Except.ok r) =
      (QueryOutcome.executed r, { s with queryHistory := r :: s.queryHistory }) ∧
    ∀ (s' : AppState) (r' : QueryRecord),
      (handleQueryExecution s' r').queryHistory = r' :: s'.queryHistory := by
  refine ⟨?_, fun _ _ => rfl⟩
  unfold executeQuery handleQueryExecution
  rw [if_neg (by simp [hq]), hsel]

/-- Witness for C6: a failed response (`success = false`, with an error
message) is prepended to the history of a state that already holds one
record. -/
theorem executeQuery_prepends_response_witness :
    executeQuery
        { initialAppState with
            selectedDataset := some sampleDataset,
            queryHistory := [sampleRecord] }
        "Show me all data" (Except.ok failedRecord) =
      (QueryOutcome.executed failedRecord,
       { initialAppState with
           selectedDataset := some sampleDataset,
           queryHistory := [failedRecord, sampleRecord] }) ∧
    ∀ (s' : AppState) (r' : QueryRecord),
      (handleQueryExecution s' r').queryHistory = r' :: s'.queryHistory :=
  executeQuery_prepends_response
    { initialAppState with
        selectedDataset := some sampleDataset,
        queryHistory := [sampleRecord] }
    "Show me all data" failedRecord sampleDataset (by decide) rfl

/-- C3 counterexample: with the loaded config's allow-list set to
`["csv", "json"]` (Scenario B/C's configuration), dropping a file named
`data.xlsx` — whose extension is NOT in the configured allow-list — is
not rejected: the upload request is issued and the dataset is added,
because `onDrop` checks the hardcoded `supportedTypes` list and never
consults the configuration. -/
theorem onDrop_configured_allowlist_counterexample :
    (onDrop { initialAppState with config := some configCsvJson } "data.xlsx"
        (Except.ok sampleDataset)).1 = UploadOutcome.uploaded sampleDataset ∧
    (onDrop { initialAppState with config := some configCsvJson } "data.xlsx"
        (Except.ok sampleDataset)).2.datasets = [sampleDataset] := by
  constructor <;> decide

/-- C3 (amended): the upload extension check validates against the
fixed built-in list `["csv", "json", "xlsx", "xls"]`, not the
configured allow-list: every file whose (case-insensitively compared)
final extension is outside that fixed list is rejected locally before
any network call, with the whole state — in particular the dataset
sequence — left unchanged, whatever the configuration holds. -/
theorem onDrop_local_rejection (s : AppState) (fileName : String)
    (remote : Except Unit Dataset)
    (h : supportedTypes.contains (fileExtension fileName) = false) :
    onDrop s fileName remote = (UploadOutcome.localReject, s) := by
  unfold onDrop
  rw [if_pos (by simpa using h)]

/-- Witness for C3 (amended), at Scenario C's input: `data.txt` is
rejected locally with the dataset sequence unchanged. -/
theorem onDrop_local_rejection_witness :
    onDrop { initialAppState with config := some configCsvJson } "data.txt"
        (Except.ok sampleDataset) =
      (UploadOutcome.localReject,
       { initialAppState with config := some configCsvJson }) :=
  onDrop_local_rejection { initialAppState with config := some configCsvJson }
    "data.txt" (Except.ok sampleDataset) (by decide)

/-- C10: the client-side extension check of `onDrop` accepts exactly
the fixed set `{csv, json, xlsx, xls}`, compared on the lowercased text
after the final dot of the file name: a drop is rejected locally iff
that extension is outside the fixed list, and the outcome of the check
is independent of the `App` state — in particular of whatever
allowed-file-types the loaded configuration declares. -/
theorem onDrop_fixed_supported_types (s t : AppState) (fileName : String)
    (remote : Except Unit Dataset) :
    ((onDrop s fileName remote).1 = UploadOutcome.localReject ↔
      supportedTypes.contains (fileExtension fileName) = false) ∧
    (onDrop s fileName remote).1 = (onDrop t fileName remote).1 := by
  by_cases h : fileExtension fileName ∈ supportedTypes
  · constructor
    · cases remote <;> simp [onDrop, h]
    · cases remote <;> simp [onDrop, h]
  · constructor
    · simp [onDrop, h]
    · simp [onDrop, h]

/-- C4: deletion is never optimistic. A failed remote delete leaves the
state entirely untouched; a confirmed remote delete removes exactly the
datasets carrying the deleted id from the sequence, leaves every query
record in the history unchanged, and nulls the selection iff it
referenced the deleted id. -/
theorem handleDatasetDelete_confirmed_only (s : AppState) (i : Nat) :
    handleDatasetDelete s i (Except.error ()) = s ∧
    (handleDatasetDelete s i (Except.ok ())).datasets =
      s.datasets.filter (fun d => d.id ≠ i) ∧
    (handleDatasetDelete s i (Except.ok ())).queryHistory = s.queryHistory ∧
    (handleDatasetDelete s i (Except.ok ())).selectedDataset =
      (match s.selectedDataset with
       | some sel => if sel.id = i then none else some sel
       | none => none) := by
  refine ⟨rfl, ?_, ?_, ?_⟩ <;>
    · unfold handleDatasetDelete
      cases hsel : s.selectedDataset with
      | none => rfl
      | some sel => by_cases h : sel.id = i <;> simp [h]

/-- C7: `handleDatasetUpload` prepends the new dataset to the front of
the sequence, leaves the rest of the state (history in particular)
unchanged, and the new dataset becomes selected exactly when no dataset
was selected at the time of the call — an existing selection is never
overridden. -/
theorem handleDatasetUpload_prepends (s : AppState) (d : Dataset) :
    (handleDatasetUpload s d).datasets = d :: s.datasets ∧
    (handleDatasetUpload s d).selectedDataset =
      (match s.selectedDataset with
       | none => some d
       | some existing => some existing) ∧
    (handleDatasetUpload s d).queryHistory = s.queryHistory := by
  refine ⟨?_, ?_, ?_⟩ <;>
    · unfold handleDatasetUpload
      cases hsel : s.selectedDataset <;> rfl

/-- C5 counterexample: from the initial (empty) state, selecting the
sample dataset — whose id is not in the (empty) dataset sequence — is
not a no-op and raises no validation error: the selection is stored
unconditionally, violating the claimed selection-integrity invariant. -/
theorem handleDatasetSelect_no_check_counterexample :
    (handleDatasetSelect initialAppState sampleDataset).selectedDataset =
      some sampleDataset ∧
    (handleDatasetSelect initialAppState sampleDataset).datasets = [] ∧
    selectionIntegrity (handleDatasetSelect initialAppState sampleDataset) = false ∧
    handleDatasetSelect initialAppState sampleDataset ≠ initialAppState := by
  refine ⟨rfl, rfl, rfl, ?_⟩
  decide

/-- Selection integrity is preserved by an upload completion. -/
theorem selectionIntegrity_upload (s : AppState) (d : Dataset)
    (h : selectionIntegrity s = true) :
    selectionIntegrity (handleDatasetUpload s d) = true := by
  unfold selectionIntegrity handleDatasetUpload
  cases hsel : s.selectedDataset with
  | none =>
    show (d :: s.datasets).any (fun x => x.id == d.id) = true
    simp
  | some sel =>
    have h' : s.datasets.any (fun x => x.id == sel.id) = true := by
      unfold selectionIntegrity at h
      rw [hsel] at h
      exact h
    show (d :: s.datasets).any (fun x => x.id == sel.id) = true
    rw [List.any_cons, h']
    simp

/-- Selection integrity is preserved by a delete, whatever the remote
outcome. -/
theorem selectionIntegrity_delete (s : AppState) (i : Nat)
    (r : Except Unit Unit) (h : selectionIntegrity s = true) :
    selectionIntegrity (handleDatasetDelete s i r) = true := by
  cases r with
  | error e => exact h
  | ok u =>
    cases hsel : s.selectedDataset with
    | none =>
      simp [handleDatasetDelete, selectionIntegrity, hsel]
    | some sel =>
      have h' : s.datasets.any (fun x => x.id == sel.id) = true := by
        unfold selectionIntegrity at h
        rw [hsel] at h
        exact h
      by_cases hid : sel.id = i
      · simp [handleDatasetDelete, selectionIntegrity, hsel, hid]
      · have hstate : handleDatasetDelete s i (Except.ok u) =
            { s with datasets := s.datasets.filter (fun d => d.id ≠ i) } := by
          simp [handleDatasetDelete, hsel, hid]
        rw [hstate]
        simp only [selectionIntegrity, hsel]
        rw [List.any_eq_true] at h' ⊢
        obtain ⟨d, hd, hdid⟩ := h'
        have hde : d.id = sel.id := by simpa using hdid
        refine ⟨d, ?_, hdid⟩
        rw [List.mem_filter]
        exact ⟨hd, by simp [hde, hid]⟩

/-- Selection integrity is preserved along any fold of dataset
operations. -/
theorem selectionIntegrity_foldl (ops : List DsOp) :
    ∀ s : AppState, selectionIntegrity s = true →
      selectionIntegrity (ops.foldl applyDsOp s) = true := by
  induction ops with
  | nil => exact fun s h => h
  | cons op rest ih =>
    intro s h
    simp only [List.foldl_cons]
    refine ih _ ?_
    cases op with
    | upload d => exact selectionIntegrity_upload s d h
    | delete i r => exact selectionIntegrity_delete s i r h

/-- C5 (amended): along every sequence of upload-completion and delete
operations from the initial state, the selected dataset is always null
or carries the id of a dataset currently in the sequence; but
`handleDatasetSelect` performs no membership check — it stores the
given dataset as selected unconditionally, so a select of an absent
dataset is neither a no-op nor a validation error and can break the
invariant. -/
theorem selection_integrity_add_remove :
    (∀ ops : List DsOp, selectionIntegrity (runDsOps ops) = true) ∧
    (∀ (s : AppState) (d : Dataset),
      handleDatasetSelect s d = { s with selectedDataset := some d }) :=
  ⟨fun ops => selectionIntegrity_foldl ops initialAppState rfl,
   fun _ _ => rfl⟩

/-- The number of lessons of the catalog level whose id is the given
state's `currentLevel` (0 when the catalog has no such level). -/
def currentLevelLessonCount (s : TutorialState) : Nat :=
  match tutorialLevels.find? (fun level => level.id == s.currentLevel) with
  | none => 0
  | some level => level.lessons.length

/-- C8: level 1 is unlocked in every completed-lesson state, and a
catalog level `k > 1` is unlocked iff every lesson id of level `k-1`'s
static lesson list has its `(k-1, lessonId)` key in the completed set. -/
theorem isLevelUnlocked_prev_complete (completed : List (Nat × Nat)) (k : Nat)
    (hk : tutorialLevels.any (fun level => level.id == k) = true)
    (h1 : 1 < k) :
    isLevelUnlocked completed 1 = true ∧
    (isLevelUnlocked completed k = true ↔
      ∀ lessonId ∈ lessonIdsOfLevel (k - 1), (k - 1, lessonId) ∈ completed) := by
  refine ⟨rfl, ?_⟩
  have hk' : k = 2 ∨ k = 3 ∨ k = 4 := by
    simp only [tutorialLevels, List.any_cons, List.any_nil, Bool.or_eq_true,
      beq_iff_eq, Bool.or_false] at hk
    omega
  rcases hk' with h | h | h <;> subst h <;>
    simp [isLevelUnlocked, lessonIdsOfLevel, tutorialLevels, isLessonCompleted,
      and_assoc]

/-- Witness for C8, at `k = 2` with exactly level 1's three lessons
completed. -/
theorem isLevelUnlocked_prev_complete_witness :
    isLevelUnlocked [(1, 1), (1, 2), (1, 3)] 1 = true ∧
    (isLevelUnlocked [(1, 1), (1, 2), (1, 3)] 2 = true ↔
      ∀ lessonId ∈ lessonIdsOfLevel 1, (1, lessonId) ∈
        ([(1, 1), (1, 2), (1, 3)] : List (Nat × Nat))) :=
  isLevelUnlocked_prev_complete [(1, 1), (1, 2), (1, 3)] 2 (by decide) (by decide)

/-- C9: when the current level exists in the catalog,
`completeLesson` succeeds, puts the `(currentLevel, currentLesson)` key
into the completed set while keeping every previously completed key,
and advances the pointer — to the next lesson if one remains in the
current level, else to the first lesson of the next level if one
exists, else not at all. In particular, completing three lessons from
the initial state (level 1 has three lessons) turns `isLevelUnlocked 2`
from `false` to `true` and leaves the pointer at level 2, lesson 1. -/
theorem completeLesson_advances (s : TutorialState)
    (hk : tutorialLevels.any (fun level => level.id == s.currentLevel) = true) :
    (∃ t, completeLesson s = some t ∧
      t.completedLessons.contains (s.currentLevel, s.currentLesson) = true ∧
      (∀ key ∈ s.completedLessons, key ∈ t.completedLessons) ∧
      (if s.currentLesson < currentLevelLessonCount s then
        t.currentLevel = s.currentLevel ∧ t.currentLesson = s.currentLesson + 1
      else if s.currentLevel < tutorialLevels.length then
        t.currentLevel = s.currentLevel + 1 ∧ t.currentLesson = 1
      else
        t.currentLevel = s.currentLevel ∧ t.currentLesson = s.currentLesson)) ∧
    ((completeLesson initialTutorialState).bind completeLesson).bind completeLesson =
      some { currentLevel := 2, currentLesson := 1,
             completedLessons := [(1, 3), (1, 2), (1, 1)] } ∧
    isLevelUnlocked [] 2 = false ∧
    isLevelUnlocked [(1, 3), (1, 2), (1, 1)] 2 = true := by
  refine ⟨?_, by decide, by decide, by decide⟩
  obtain ⟨lvl, hfind⟩ :
      ∃ lvl, tutorialLevels.find? (fun level => level.id == s.currentLevel) = some lvl := by
    cases hfind : tutorialLevels.find? (fun level => level.id == s.currentLevel) with
    | none =>
      rw [List.find?_eq_none] at hfind
      rw [List.any_eq_true] at hk
      obtain ⟨x, hx, hpx⟩ := hk
      exact absurd hpx (by simpa using hfind x hx)
    | some lvl => exact ⟨lvl, rfl⟩
  have hcnt : currentLevelLessonCount s = lvl.lessons.length := by
    unfold currentLevelLessonCount
    rw [hfind]
  have hmem : ((if s.completedLessons.contains (s.currentLevel, s.currentLesson)
      then s.completedLessons
      else (s.currentLevel, s.currentLesson) :: s.completedLessons).contains
        (s.currentLevel, s.currentLesson)) = true := by
    by_cases hc : s.completedLessons.contains (s.currentLevel, s.currentLesson) = true
    · rw [if_pos hc]; exact hc
    · rw [if_neg hc]; simp
  have hkeep : ∀ key ∈ s.completedLessons, key ∈
      (if s.completedLessons.contains (s.currentLevel, s.currentLesson)
       then s.completedLessons
       else (s.currentLevel, s.currentLesson) :: s.completedLessons) := by
    intro key hkey
    by_cases hc : s.completedLessons.contains (s.currentLevel, s.currentLesson) = true
    · rw [if_pos hc]; exact hkey
    · rw [if_neg hc]; exact List.mem_cons_of_mem _ hkey
  by_cases hlesson : s.currentLesson < lvl.lessons.length
  · have hstate : completeLesson s = some
        { s with
            completedLessons :=
              if s.completedLessons.contains (s.currentLevel, s.currentLesson)
              then s.completedLessons
              else (s.currentLevel, s.currentLesson) :: s.completedLessons,
            currentLesson := s.currentLesson + 1 } := by
      unfold completeLesson
      rw [hfind]
      simp [hlesson]
    refine ⟨_, hstate, hmem, hkeep, ?_⟩
    rw [if_pos (by rw [hcnt]; exact hlesson)]
    exact ⟨rfl, rfl⟩
  · by_cases hlevel : s.currentLevel < tutorialLevels.length
    · have hstate : completeLesson s = some
          { s with
              completedLessons :=
                if s.completedLessons.contains (s.currentLevel, s.currentLesson)
                then s.completedLessons
                else (s.currentLevel, s.currentLesson) :: s.completedLessons,
              currentLevel := s.currentLevel + 1,
              currentLesson := 1 } := by
        unfold completeLesson
        rw [hfind]
        simp [hlesson, hlevel]
      refine ⟨_, hstate, hmem, hkeep, ?_⟩
      rw [if_neg (by rw [hcnt]; exact hlesson), if_pos hlevel]
      exact ⟨rfl, rfl⟩
    · have hstate : completeLesson s = some
          { s with
              completedLessons :=
                if s.completedLessons.contains (s.currentLevel, s.currentLesson)
                then s.completedLessons
                else (s.currentLevel, s.currentLesson) :: s.completedLessons } := by
        unfold completeLesson
        rw [hfind]
        simp [hlesson, hlevel]
      refine ⟨_, hstate, hmem, hkeep, ?_⟩
      rw [if_neg (by rw [hcnt]; exact hlesson), if_neg hlevel]
      exact ⟨rfl, rfl⟩

/-- Witness for C9, at the initial tutorial state (level 1, lesson 1,
nothing completed). -/
theorem completeLesson_advances_witness :
    (∃ t, completeLesson initialTutorialState = some t ∧
      t.completedLessons.contains
        (initialTutorialState.currentLevel, initialTutorialState.currentLesson) = true ∧
      (∀ key ∈ initialTutorialState.completedLessons, key ∈ t.completedLessons) ∧
      (if initialTutorialState.currentLesson <
          currentLevelLessonCount initialTutorialState then
        t.currentLevel = initialTutorialState.currentLevel ∧
        t.currentLesson = initialTutorialState.currentLesson + 1
      else if initialTutorialState.currentLevel < tutorialLevels.length then
        t.currentLevel = initialTutorialState.currentLevel + 1 ∧ t.currentLesson = 1
      else
        t.currentLevel = initialTutorialState.currentLevel ∧
        t.currentLesson = initialTutorialState.currentLesson)) ∧
    ((completeLesson initialTutorialState).bind completeLesson).bind completeLesson =
      some { currentLevel := 2, currentLesson := 1,
             completedLessons := [(1, 3), (1, 2), (1, 1)] } ∧
    isLevelUnlocked [] 2 = false ∧
    isLevelUnlocked [(1, 3), (1, 2), (1, 1)] 2 = true :=
  completeLesson_advances initialTutorialState (by decide)
